import Mathlib

/-!
Verification of the Runpod network-volume storage tool's core:
the volume catalog client (`core/client.py`), the high-level API
(`core/api.py`) and the S3 multipart upload engine (`core/s3_client.py`),
shallowly embedded in Lean.
-/

namespace RunpodStorage

/-! ## Endpoint registry and region normalisation (`client.py`, `s3_client.py`) -/

/-- The static datacenter registry `RunpodClient.DATACENTERS`. -/
def DATACENTERS : List (String × String) :=
  [("EUR-IS-1", "https://s3api-eur-is-1.runpod.io/"),
   ("EU-RO-1", "https://s3api-eu-ro-1.runpod.io/"),
   ("EU-CZ-1", "https://s3api-eu-cz-1.runpod.io/"),
   ("US-KS-2", "https://s3api-us-ks-2.runpod.io/")]

/-- The datacenter identifiers (the keys of `DATACENTERS`). -/
def datacenterIds : List String := DATACENTERS.map Prod.fst

/-- ASCII uppercase of one character, as Python's `str.upper` acts on the
ASCII identifiers this client handles. -/
def upperChar (c : Char) : Char :=
  if 'a' ≤ c ∧ c ≤ 'z' then Char.ofNat (c.toNat - 32) else c

/-- Python `str.upper` on an ASCII string. -/
def upperStr (s : String) : String := ⟨s.data.map upperChar⟩

/-- Python `str.strip()`: drop leading and trailing whitespace. -/
def trimStr (s : String) : String :=
  ⟨((s.data.dropWhile Char.isWhitespace).reverse.dropWhile Char.isWhitespace).reverse⟩

/-- Source `RunpodS3Client.normalize_region`: empty input is returned as is; otherwise
strip whitespace, uppercase, and apply the legacy rewrite table
`{US-KS-1 ↦ US-KS-2, US-OR-1 ↦ US-KS-2}`. -/
def normalize_region (region : String) : String :=
  if region = "" then region
  else
    let normalized := upperStr (trimStr region)
    if normalized = "US-KS-1" then "US-KS-2"
    else if normalized = "US-OR-1" then "US-KS-2"
    else normalized

/-- Source `RunpodClient.get_s3_endpoint`: registry lookup, raising `ValueError` for an
unknown datacenter id. -/
def get_s3_endpoint (datacenter_id : String) : Except String String :=
  match DATACENTERS.lookup datacenter_id with
  | some url => .ok url
  | none => .error ("No S3 endpoint for datacenter " ++ datacenter_id)

/-! ## Volume creation validation (`RunpodClient.create_network_volume`) -/

/-- Outcome of the client-side phase of `create_network_volume`: either a
`ValueError` raised before any network request, or the HTTP POST that is
issued with the given payload. -/
inductive CreateResult where
  | validationError (msg : String)
  | request (name : String) (size : Int) (dataCenterId : String)
deriving DecidableEq, Repr

/-- The client-side phase of `RunpodClient.create_network_volume`: the exact
checks performed before `_make_request` is called, in source order. -/
def create_network_volume (name : String) (size : Int) (datacenter_id : String) :
    CreateResult :=
  if datacenterIds.contains datacenter_id = false then
    .validationError "Invalid datacenter"
  else if ¬ (10 ≤ size ∧ size ≤ 4000) then
    .validationError "Size must be between 10 and 4000 GB"
  else
    .request name size datacenter_id

/-- Modelled from the spec (claim C7's words, not from the source): a volume
name matching `[A-Za-z0-9_-]+` with length 1..64.  Used only to exhibit a
name the claim requires `create` to reject. -/
def specValidName (name : String) : Bool :=
  decide (1 ≤ name.length) && decide (name.length ≤ 64) &&
    name.data.all (fun c => c.isAlpha || c.isDigit || c == '_' || c == '-')

/-! ## Adaptive chunk size and the `upload_file` front (`RunpodS3Client.upload_file`) -/

def MiB : Nat := 1024 ^ 2

def GiB : Nat := 1024 ^ 3

/-- The auto-detected chunk size in `RunpodS3Client.upload_file`.  The source
compares `file_size / 1024**3` (an exact binary64 quotient for every realistic
size) against 1, 10, 50; this is the same comparison performed exactly. -/
def autoChunkSize (file_size : Nat) : Nat :=
  if file_size < 1 * GiB then 10 * MiB
  else if file_size < 10 * GiB then 50 * MiB
  else if file_size < 50 * GiB then 100 * MiB
  else 200 * MiB

/-- The local filesystem as `upload_file` observes it through `pathlib`. -/
structure LocalFS where
  pathExists : String → Bool
  isDir : String → Bool
  fileSize : String → Nat

/-- Outcome of `RunpodS3Client.upload_file` up to the choice of transfer
strategy.  Only the `simpleUpload` and `multipartUpload` outcomes issue any
network request; the two error outcomes are raised before any. -/
inductive UploadFileResult where
  | fileNotFound (msg : String)
  | valueError (msg : String)
  | simpleUpload (localPath volumeId remotePath : String)
  | multipartUpload (localPath volumeId remotePath : String) (chunkSize : Nat)
deriving DecidableEq, Repr

/-- Source `RunpodS3Client.upload_file`: existence and directory checks, chunk-size
auto-detection, and the simple-vs-multipart dispatch. -/
def upload_file (fs : LocalFS) (local_path volume_id remote_path : String)
    (chunk_size : Option Nat) : UploadFileResult :=
  if fs.pathExists local_path = false then
    .fileNotFound ("Local file not found: " ++ local_path)
  else if fs.isDir local_path then
    .valueError ("Path is a directory. Use upload_directory() for directory uploads: "
      ++ local_path)
  else
    let file_size := fs.fileSize local_path
    let cs :=
      match chunk_size with
      | some c => c
      | none => autoChunkSize file_size
    if file_size < cs then
      .simpleUpload local_path volume_id remote_path
    else
      .multipartUpload local_path volume_id remote_path cs

/-! ## Existence probes (`RunpodStorageAPI.volume_exists` / `file_exists`) -/

/-- The outcome of an underlying API call as seen by the bare
`try ... except: return False` wrappers: either a value or some raised
exception (authentication failure, network error, volume not found, ...). -/
inductive ApiOutcome (α : Type) where
  | ok (a : α)
  | exn (e : String)
deriving DecidableEq, Repr

/-- One entry of a `list_files` listing. -/
structure FileInfo where
  key : String
  size : Nat
deriving DecidableEq, Repr

/-- Source `RunpodStorageAPI.volume_exists`: `get_volume` succeeded ↦ True, any
exception ↦ False. -/
def volume_exists (r : ApiOutcome Unit) : Bool :=
  match r with
  | .ok _ => true
  | .exn _ => false

/-- Source `RunpodStorageAPI.file_exists`: `list_files(volume, remote_path)` followed
by `any(f["key"] == remote_path)`; any exception ↦ False. -/
def file_exists (r : ApiOutcome (List FileInfo)) (remote_path : String) : Bool :=
  match r with
  | .ok files => files.any (fun f => f.key == remote_path)
  | .exn _ => false

/-! ## Multipart upload engine (`LargeMultipartUploader`) -/

/-- Total parts `N = ⌈file_size / part_size⌉`: computed as
`(file_size + part_size - 1) // part_size` in `verify_upload_compatibility`
and as `math.ceil(file_size / part_size)` in `upload` (identical for
positive part size). -/
def totalParts (file_size part_size : Nat) : Nat :=
  (file_size + part_size - 1) / part_size

/-- One entry of a `list_parts` answer: part number and size in bytes. -/
structure PartInfo where
  partNumber : Nat
  size : Nat
deriving DecidableEq, Repr

/-- Source `LargeMultipartUploader.verify_upload_compatibility`: reject an empty part
list; require every part numbered below `N` to have exactly the configured
part size and any other part to have the last part's size
`file_size - (N-1)*part_size` (computed in `Int`, as Python does); finally
reject if the maximal part number exceeds `N`. -/
def verify_upload_compatibility (parts : List PartInfo)
    (file_size part_size : Nat) : Bool :=
  if parts.isEmpty then false
  else
    let expected_total_parts := totalParts file_size part_size
    let expected_last_size : Int :=
      (file_size : Int) - ((expected_total_parts : Int) - 1) * (part_size : Int)
    let sizesOK := parts.all fun part =>
      if part.partNumber < expected_total_parts then
        part.size == part_size
      else
        (part.size : Int) == expected_last_size
    let max_part_number := (parts.map (fun p => p.partNumber)).foldl max 0
    sizesOK && decide (max_part_number ≤ expected_total_parts)

/-- Python `key.lstrip("/")`. -/
def lstripSlash (s : String) : String := ⟨s.data.dropWhile (fun c => c == '/')⟩

/-- The key comparison in `find_existing_upload`: equal plain, equal with a
leading slash added, or equal after stripping leading slashes on both. -/
def keyMatches (upload_key key : String) : Bool :=
  upload_key == key || upload_key == "/" ++ key ||
    lstripSlash upload_key == lstripSlash key

/-- One multipart upload listed by `list_multipart_uploads`, together with the
parts its `list_parts` reports. -/
structure UploadCandidate where
  key : String
  uploadId : String
  parts : List PartInfo
deriving DecidableEq, Repr

/-- Source `LargeMultipartUploader.find_existing_upload`: scan the listed uploads in
order and adopt the first whose key matches and whose parts pass
`verify_upload_compatibility`. -/
def find_existing_upload (uploads : List UploadCandidate) (key : String)
    (file_size part_size : Nat) : Option String :=
  match uploads with
  | [] => none
  | u :: rest =>
    if keyMatches u.key key &&
        verify_upload_compatibility u.parts file_size part_size then
      some u.uploadId
    else find_existing_upload rest key file_size part_size

/-- The session `upload` proceeds with: the discovered resumable session, or a
fresh one from `create_multipart_upload`. -/
inductive SessionChoice where
  | resumed (uploadId : String)
  | created
deriving DecidableEq, Repr

/-- The resume decision in `upload`: only with `enable_resume` is
`find_existing_upload` consulted; with no compatible session a new multipart
upload is created. -/
def chooseSession (enable_resume : Bool) (uploads : List UploadCandidate)
    (key : String) (file_size part_size : Nat) : SessionChoice :=
  if enable_resume then
    match find_existing_upload uploads key file_size part_size with
    | some uid => .resumed uid
    | none => .created
  else .created

/-- The part numbers `upload` schedules: `1..total_parts` with the
already-uploaded ones (`is_part_uploaded`) skipped. -/
def partsToUpload (existingNums : List Nat) (total_parts : Nat) : List Nat :=
  (List.range' 1 total_parts).filter (fun p => !existingNums.contains p)

/-- Modelled from the spec (claim C2's words, not from the source): the
compatibility conditions as the claim states them — part numbers a subset of
`1..N`, every part below `N` of exactly the configured size, part `N` of the
residual size. -/
def specCompatible (parts : List PartInfo) (file_size part_size : Nat) : Prop :=
  (∀ p ∈ parts, 1 ≤ p.partNumber ∧ p.partNumber ≤ totalParts file_size part_size) ∧
  (∀ p ∈ parts, p.partNumber < totalParts file_size part_size →
    p.size = part_size) ∧
  (∀ p ∈ parts, p.partNumber = totalParts file_size part_size →
    (p.size : Int) = (file_size : Int) -
      ((totalParts file_size part_size : Int) - 1) * (part_size : Int))

/-- A (part-number, etag) pair as assembled in `upload` before completion. -/
structure PartETag where
  partNumber : Nat
  etag : String
deriving DecidableEq, Repr

/-- The part numbers of an assembled parts list. -/
def partNumbers (l : List PartETag) : List Nat := l.map (fun p => p.partNumber)

/-- Ascending part-number order, the key used by
`sorted(all_parts, key=lambda x: x["PartNumber"])`. -/
def byNumber (a b : PartETag) : Prop := a.partNumber ≤ b.partNumber

instance : DecidableRel byNumber := fun a b => Nat.decLe _ _

/-- The completeness gate and sort at the end of `upload`: build
`parts_by_number` (the distinct part numbers), raise `RuntimeError` when the
distinct count differs from `total_parts`, otherwise hand `sorted(all_parts)`
(ascending by part number) to `complete_multipart_upload`. -/
def assemble_parts (all_parts : List PartETag) (total_parts : Nat) :
    Option (List PartETag) :=
  if (partNumbers all_parts).dedup.length ≠ total_parts then none
  else some (all_parts.insertionSort byNumber)

/-! ## Per-part upload with retries and the worker pool (`upload_part`, `upload`) -/

/-- Outcome of one `upload_part` attempt as its except clause classifies it:
success with an etag, a 507 Insufficient Storage response, a 524 response, or
another Boto error. -/
inductive PartAttemptOutcome where
  | ok (etag : String)
  | err507
  | err524
  | errOther
deriving DecidableEq, Repr

inductive PartUploadResult where
  | uploaded (p : PartETag)
  | insufficientStorage
  | exhausted
deriving DecidableEq, Repr

/-- How one part upload ends. -/
def etagOf : PartAttemptOutcome → String
  | .ok e => e
  | _ => ""

def isOkOutcome : PartAttemptOutcome → Bool
  | .ok _ => true
  | _ => false

def upload_part_loop (outcome : Nat → PartAttemptOutcome)
    (pn attempt remaining : Nat) : PartUploadResult × Nat :=
  if isOkOutcome (outcome attempt) then
    (.uploaded ⟨pn, etagOf (outcome attempt)⟩, attempt)
  else if outcome attempt = .err507 then
    (.insufficientStorage, attempt)
  else
    match remaining with
    | 0 => (.exhausted, attempt)
    | r + 1 => upload_part_loop outcome pn (attempt + 1) r

inductive EngineOp where
  | attemptPart (pn : Nat) (attempt : Nat)
  | abortMultipart
deriving DecidableEq, Repr

inductive UploadError where
  | insufficientStorage (pn : Nat)
  | partFailed (pn : Nat)
deriving DecidableEq, Repr

def partOutcome (outcome : Nat → Nat → PartAttemptOutcome) (max_retries pn : Nat) :
    PartUploadResult × Nat :=
  upload_part_loop (outcome pn) pn 1 (max_retries - 1)

def partError (outcome : Nat → Nat → PartAttemptOutcome) (max_retries : Nat)
    (pn : Nat) : Option UploadError :=
  match (partOutcome outcome max_retries pn).1 with
  | .insufficientStorage => some (.insufficientStorage pn)
  | .exhausted => some (.partFailed pn)
  | _ => none

def run_parts (outcome : Nat → Nat → PartAttemptOutcome) (max_retries : Nat)
    (toUpload : List Nat) :
    Except UploadError (List PartETag) × List EngineOp :=
  let ops := toUpload.flatMap fun pn =>
    (List.range' 1 (partOutcome outcome max_retries pn).2).map
      fun a => EngineOp.attemptPart pn a
  match toUpload.findSome? (partError outcome max_retries) with
  | some e => (.error e, ops)
  | none =>
    (.ok (toUpload.filterMap fun pn =>
      match (partOutcome outcome max_retries pn).1 with
      | .uploaded p => some p
      | _ => none), ops)


/-! ## Directory sync (`RunpodS3Client.upload_directory`) -/

/-- Python `.replace("\\", "/")` on a key (backslash is a single character,
so the substring replace is a character map). -/
def slashify (s : String) : String :=
  ⟨s.data.map (fun c => if c = '\\' then '/' else c)⟩

def remoteKey (remote_dir rel : String) : String :=
  slashify (if remote_dir = "" then rel else remote_dir ++ "/" ++ rel)

def localPlan (localFiles : List String) (excludeMatch : String → Bool)
    (remote_dir : String) : List String :=
  (localFiles.filter (fun rel => !excludeMatch rel)).map (remoteKey remote_dir)

inductive SyncEvent where
  | uploadFile (key : String)
  | deleteFile (key : String)
deriving DecidableEq, Repr

structure SyncResult where
  events : List SyncEvent
  success : Bool
  uploaded : List String
  deleted : List String
deriving DecidableEq, Repr

def upload_directory (localFiles : List String) (excludeMatch : String → Bool)
    (remote_dir : String) (initialRemote : List String)
    (uploadOK : String → Bool) (delete : Bool) : SyncResult :=
  let keys := localPlan localFiles excludeMatch remote_dir
  let succeeded := keys.filter uploadOK
  let failed := keys.filter (fun k => !uploadOK k)
  let remaining := initialRemote.filter (fun k => !succeeded.contains k)
  let toDelete := if delete then remaining else []
  { events := keys.map SyncEvent.uploadFile ++ toDelete.map SyncEvent.deleteFile,
    success := failed.isEmpty,
    uploaded := succeeded,
    deleted := toDelete }

def finalRemote (initialRemote uploaded deleted : List String) : List String :=
  (initialRemote ++ uploaded).filter (fun k => !deleted.contains k)

/-! ## Completion with timeout doubling (`complete_with_timeout_retry`) -/

/-- Python `math.ceil(file_size / 1024**3)`, the file size in GiB rounded up (the
binary64 quotient the source takes realises this exactly for every realistic
size). -/
def ceilGiB (file_size : Nat) : Nat := (file_size + GiB - 1) / GiB

/-- The initial completion deadline chosen in `upload`:
`max(60, ceil(file_gb) * 5)` seconds. -/
def completion_timeout (file_size : Nat) : Nat := max 60 (ceilGiB file_size * 5)

/-- Outcome of one `complete_multipart_upload` attempt as the loop's except
clauses classify it. -/
inductive CompleteOutcome where
  | ok
  | timedOut
  | clientError (noSuchUpload : Bool)
deriving DecidableEq, Repr

/-- Predicate `is_no_such_upload_error` applied to the caught exception (timeouts set
`no_such_upload = False`). -/
def noSuch : CompleteOutcome → Bool
  | .clientError b => b
  | _ => false

/-- What the server does on each attempt: the outcome of the n-th
`complete_multipart_upload` call and of the `head_object` probe following it
(`none` = the probe itself raised). -/
structure CompleteEnv where
  completeOutcome : Nat → CompleteOutcome
  headResult : Nat → Option Nat

/-- Observable actions of the completion loop. -/
inductive CompleteEvent where
  | attempt (n : Nat) (timeout : Nat)
  | sleep (seconds : Nat)
  | headProbe (n : Nat)
deriving DecidableEq, Repr

/-- How the completion loop ends. -/
inductive CompleteResult where
  | completed (n : Nat)
  | succeededViaHead (n : Nat)
  | failed
deriving DecidableEq, Repr

/-- The body of `complete_with_timeout_retry`: attempt `complete_multipart`
with the current timeout; on success return; otherwise sleep for the current
timeout unless the error was "no such upload", probe `head_object`, return
success if the reported size equals the expected size, and otherwise double
the timeout and retry while attempts remain. -/
def complete_go (env : CompleteEnv) (expected_size attempt timeout remaining : Nat) :
    CompleteResult × List CompleteEvent :=
  if env.completeOutcome attempt = .ok then
    (.completed attempt, [.attempt attempt timeout])
  else
    let evs := CompleteEvent.attempt attempt timeout ::
      ((if noSuch (env.completeOutcome attempt) then []
        else [CompleteEvent.sleep timeout]) ++ [CompleteEvent.headProbe attempt])
    if env.headResult attempt = some expected_size then
      (.succeededViaHead attempt, evs)
    else
      match remaining with
      | 0 => (.failed, evs)
      | r + 1 =>
        let next := complete_go env expected_size (attempt + 1) (timeout * 2) r
        (next.1, evs ++ next.2)

/-- Source `LargeMultipartUploader.complete_with_timeout_retry`: the loop runs
attempts `1..max_retries` starting from the initial timeout. -/
def complete_with_timeout_retry (env : CompleteEnv)
    (max_retries expected_size initial_timeout : Nat) :
    CompleteResult × List CompleteEvent :=
  complete_go env expected_size 1 initial_timeout (max_retries - 1)

/-! ## Concrete instances used by witnesses and counterexamples -/

/-- A filesystem with no entries, and one whose only entry is a directory. -/
def fsEmpty : LocalFS := ⟨fun _ => false, fun _ => false, fun _ => 0⟩

def fsOneDir : LocalFS := ⟨fun p => p == "/tmp/d", fun p => p == "/tmp/d", fun _ => 0⟩

/-- A server that times the first completion attempt out and accepts the
second. -/
def envRetryOnce : CompleteEnv :=
  ⟨fun n => if n = 1 then .timedOut else .ok, fun _ => none⟩

/-- The server behaviour of the C4 counterexample: every attempt on part 1
returns 507 Insufficient Storage, any other part succeeds. -/
def outcome507 : Nat → Nat → PartAttemptOutcome :=
  fun pn _ => if pn = 1 then .err507 else .ok "e2"

/-- The concrete tree of the witness: `{a.txt, sub/b.txt, .DS_Store}` with
`.DS_Store` excluded, prefix `pre`, and `old.txt` already remote. -/
def syncRun : SyncResult :=
  upload_directory ["a.txt", "sub/b.txt", ".DS_Store"]
    (fun s => s == ".DS_Store") "pre" ["pre/old.txt"] (fun _ => true) true

/-! ## Helper lemmas -/

theorem foldl_max_le_iff (l : List Nat) (a n : Nat) :
    l.foldl max a ≤ n ↔ a ≤ n ∧ ∀ x ∈ l, x ≤ n := by
  induction l generalizing a with
  | nil => simp
  | cons b t ih =>
    simp only [List.foldl_cons, ih, max_le_iff, List.mem_cons]
    constructor
    · rintro ⟨⟨ha, hb⟩, ht⟩
      exact ⟨ha, fun x hx => by rcases hx with rfl | hx; exact hb; exact ht x hx⟩
    · rintro ⟨ha, h⟩
      exact ⟨⟨ha, h b (Or.inl rfl)⟩, fun x hx => h x (Or.inr hx)⟩

theorem verify_compat_iff (parts : List PartInfo) (S P : Nat)
    (hpn : ∀ p ∈ parts, 1 ≤ p.partNumber) :
    verify_upload_compatibility parts S P = true ↔
      parts ≠ [] ∧ specCompatible parts S P := by
  unfold verify_upload_compatibility specCompatible
  by_cases hemp : parts.isEmpty
  · simp [hemp, List.isEmpty_iff.mp hemp]
  · rw [if_neg hemp]
    have hne : parts ≠ [] := by simpa [List.isEmpty_iff] using hemp
    rw [Bool.and_eq_true, List.all_eq_true, decide_eq_true_eq, foldl_max_le_iff]
    constructor
    · rintro ⟨hall, -, hmax⟩
      have hub : ∀ p ∈ parts, p.partNumber ≤ totalParts S P := fun p hp =>
        hmax _ (List.mem_map_of_mem _ hp)
      refine ⟨hne, fun p hp => ⟨hpn p hp, hub p hp⟩, ?_, ?_⟩
      · intro p hp hlt
        have h := hall p hp
        rw [if_pos hlt] at h
        exact eq_of_beq h
      · intro p hp heq
        have h := hall p hp
        rw [if_neg (by omega)] at h
        exact eq_of_beq h
    · rintro ⟨-, hb, hlt, hN⟩
      refine ⟨?_, Nat.zero_le _, ?_⟩
      · intro p hp
        by_cases h : p.partNumber < totalParts S P
        · rw [if_pos h]
          exact beq_iff_eq.mpr (hlt p hp h)
        · rw [if_neg h]
          have heq : p.partNumber = totalParts S P := by
            have := (hb p hp).2; omega
          exact beq_iff_eq.mpr (hN p hp heq)
      · intro x hx
        rcases List.mem_map.mp hx with ⟨p, hp, rfl⟩
        exact (hb p hp).2

theorem find_existing_eq_find? (uploads : List UploadCandidate) (key : String)
    (S P : Nat) :
    find_existing_upload uploads key S P =
      (uploads.find? (fun u => keyMatches u.key key &&
        verify_upload_compatibility u.parts S P)).map (fun u => u.uploadId) := by
  induction uploads with
  | nil => rfl
  | cons u rest ih =>
    rw [find_existing_upload, List.find?_cons]
    by_cases h : keyMatches u.key key && verify_upload_compatibility u.parts S P
    · simp [h]
    · simp only [Bool.not_eq_true] at h
      simp [h, ih]

theorem partsToUpload_mem (existingNums : List Nat) (N p : Nat) :
    p ∈ partsToUpload existingNums N ↔ 1 ≤ p ∧ p ≤ N ∧ p ∉ existingNums := by
  have hc : existingNums.contains p = false ↔ p ∉ existingNums := by simp
  simp only [partsToUpload, List.mem_filter, List.mem_range'_1,
    Bool.not_eq_true', hc]
  constructor
  · rintro ⟨⟨h1, h2⟩, h3⟩; exact ⟨h1, by omega, h3⟩
  · rintro ⟨h1, h2, h3⟩; exact ⟨⟨h1, by omega⟩, h3⟩

theorem chooseSession_created (uploads : List UploadCandidate) (key : String)
    (S P : Nat) :
    chooseSession true uploads key S P = .created ↔
      find_existing_upload uploads key S P = none := by
  cases h : find_existing_upload uploads key S P <;> simp [chooseSession, h]

theorem chooseSession_resumed (uploads : List UploadCandidate) (key : String)
    (S P : Nat) (uid : String) :
    chooseSession true uploads key S P = .resumed uid ↔
      find_existing_upload uploads key S P = some uid := by
  cases h : find_existing_upload uploads key S P <;> simp [chooseSession, h]

/-- A duplicate-free list of `N` numbers drawn from `1..N` is a permutation of
`1..N`. -/
theorem nums_perm_range (nums : List Nat) (N : Nat) (hnd : nums.Nodup)
    (hbound : ∀ n ∈ nums, 1 ≤ n ∧ n ≤ N) (hlen : nums.length = N) :
    nums.Perm (List.range' 1 N) := by
  have hndr : (List.range' 1 N).Nodup := List.nodup_range' 1 N
  apply List.perm_of_nodup_nodup_toFinset_eq hnd hndr
  have hsub : nums.toFinset ⊆ (List.range' 1 N).toFinset := by
    intro x hx
    rw [List.mem_toFinset] at hx ⊢
    rcases hbound x hx with ⟨h1, h2⟩
    rw [List.mem_range'_1]
    omega
  apply Finset.eq_of_subset_of_card_le hsub
  rw [List.toFinset_card_of_nodup hnd, List.toFinset_card_of_nodup hndr,
    List.length_range', hlen]

theorem assemble_parts_spec (N : Nat) (all_parts : List PartETag)
    (hnd : (partNumbers all_parts).Nodup)
    (hbound : ∀ n ∈ partNumbers all_parts, 1 ≤ n ∧ n ≤ N) :
    (∀ sorted, assemble_parts all_parts N = some sorted →
      sorted.length = N ∧ partNumbers sorted = List.range' 1 N) ∧
    ((∃ q, 1 ≤ q ∧ q ≤ N ∧ q ∉ partNumbers all_parts) →
      assemble_parts all_parts N = none) := by
  letI : IsTotal PartETag byNumber := ⟨fun a b => Nat.le_total _ _⟩
  letI : IsTrans PartETag byNumber := ⟨fun a b c => Nat.le_trans⟩
  have hded : (partNumbers all_parts).dedup = partNumbers all_parts :=
    List.Nodup.dedup hnd
  constructor
  · intro sorted hs
    unfold assemble_parts at hs
    by_cases hlen : (partNumbers all_parts).dedup.length ≠ N
    · rw [if_pos hlen] at hs; cases hs
    · rw [if_neg hlen] at hs
      rw [hded] at hlen
      push_neg at hlen
      obtain rfl : sorted = all_parts.insertionSort byNumber :=
        (Option.some_inj.mp hs).symm
      have hperm : (all_parts.insertionSort byNumber).Perm all_parts :=
        List.perm_insertionSort _ _
      have hpermN : (partNumbers (all_parts.insertionSort byNumber)).Perm
          (partNumbers all_parts) := hperm.map _
      have hnums : (partNumbers all_parts).Perm (List.range' 1 N) :=
        nums_perm_range _ N hnd hbound hlen
      constructor
      · calc (all_parts.insertionSort byNumber).length
            = all_parts.length := hperm.length_eq
          _ = (partNumbers all_parts).length := (List.length_map _ _).symm
          _ = N := hlen
      · have hsorted : (all_parts.insertionSort byNumber).Pairwise byNumber :=
          List.sorted_insertionSort byNumber all_parts
        have hsortedN : (partNumbers (all_parts.insertionSort byNumber)).Pairwise
            (· ≤ ·) := by
          unfold partNumbers
          rw [List.pairwise_map]
          exact hsorted
        have hsortedR : (List.range' 1 N).Pairwise ((· ≤ ·) : Nat → Nat → Prop) :=
          (List.pairwise_lt_range' 1 N).imp le_of_lt
        exact List.eq_of_perm_of_sorted (hpermN.trans hnums) hsortedN hsortedR
  · rintro ⟨q, h1, h2, h3⟩
    unfold assemble_parts
    rw [if_pos]
    rw [hded]
    intro hlen
    have hnums : (partNumbers all_parts).Perm (List.range' 1 N) :=
      nums_perm_range _ N hnd hbound hlen
    apply h3
    rw [hnums.mem_iff, List.mem_range'_1]
    omega

theorem attempt_self_mem (env : CompleteEnv) (es a t r : Nat) :
    CompleteEvent.attempt a t ∈ (complete_go env es a t r).2 := by
  rw [complete_go]
  split_ifs <;> cases r <;> simp

theorem attempt_mem_bounds (env : CompleteEnv) (es : Nat) :
    ∀ r a t n t', CompleteEvent.attempt n t' ∈ (complete_go env es a t r).2 →
      a ≤ n ∧ n ≤ a + r ∧ t' = t * 2 ^ (n - a) := by
  intro r
  induction r with
  | zero =>
    intro a t n t' h
    rw [complete_go] at h
    split_ifs at h
    all_goals simp only [List.cons_append, List.nil_append, List.mem_cons,
      List.not_mem_nil, List.mem_singleton, List.mem_append, or_false] at h
    all_goals repeat' (rcases h with h | h)
    all_goals exact ⟨le_refl _, by omega, by simp⟩
  | succ r ih =>
    intro a t n t' h
    rw [complete_go] at h
    split_ifs at h
    all_goals simp only [List.cons_append, List.nil_append, List.mem_cons,
      List.not_mem_nil, List.mem_singleton, List.mem_append, or_false] at h
    all_goals repeat' (rcases h with h | h)
    all_goals first
      | exact ⟨le_refl _, by omega, by simp⟩
      | (rcases ih (a + 1) (t * 2) n t' h with ⟨h1, h2, h3⟩
         refine ⟨by omega, by omega, ?_⟩
         rw [h3]
         have hn : n - a = (n - (a + 1)) + 1 := by omega
         rw [hn, pow_succ]
         ring)

theorem failure_probe_sleep (env : CompleteEnv) (es : Nat) :
    ∀ r a t n t', CompleteEvent.attempt n t' ∈ (complete_go env es a t r).2 →
      env.completeOutcome n ≠ .ok →
      CompleteEvent.headProbe n ∈ (complete_go env es a t r).2 ∧
      (noSuch (env.completeOutcome n) = false →
        CompleteEvent.sleep t' ∈ (complete_go env es a t r).2) := by
  intro r
  induction r with
  | zero =>
    intro a t n t' h hne
    rw [complete_go] at h ⊢
    split_ifs at h ⊢ with h1 h2 h3
    · simp at h
      obtain ⟨rfl, rfl⟩ := h
      exact absurd h1 hne
    all_goals simp only [List.cons_append, List.nil_append, List.mem_cons,
      List.not_mem_nil, List.mem_singleton, List.mem_append, or_false] at h
    all_goals repeat' (rcases h with h | h)
    all_goals constructor
    all_goals first
      | (intro hf
         first
           | (rw [hf] at h2; cases h2)
           | simp)
      | simp
  | succ r ih =>
    intro a t n t' h hne
    rw [complete_go] at h ⊢
    split_ifs at h ⊢ with h1 h2 h3
    · simp at h
      obtain ⟨rfl, rfl⟩ := h
      exact absurd h1 hne
    all_goals simp only [List.cons_append, List.nil_append, List.mem_cons,
      List.not_mem_nil, List.mem_singleton, List.mem_append, or_false] at h
    all_goals repeat' (rcases h with h | h)
    all_goals first
      | (refine ⟨?_, fun hf => ?_⟩
         · simp
         · first
           | (rw [hf] at h2; cases h2)
           | simp)
      | (rcases ih (a + 1) (t * 2) n t' h hne with ⟨hp, hs⟩
         refine ⟨?_, fun hf => ?_⟩
         · exact List.mem_cons_of_mem _ (List.mem_append_right _ hp)
         · exact List.mem_cons_of_mem _ (List.mem_append_right _ (hs hf)))

theorem sleep_mem_origin (env : CompleteEnv) (es : Nat) :
    ∀ r a t s, CompleteEvent.sleep s ∈ (complete_go env es a t r).2 →
      ∃ n, CompleteEvent.attempt n s ∈ (complete_go env es a t r).2 ∧
        env.completeOutcome n ≠ .ok ∧ noSuch (env.completeOutcome n) = false := by
  intro r
  induction r with
  | zero =>
    intro a t s h
    rw [complete_go] at h ⊢
    split_ifs at h ⊢ with h1 h2 h3
    all_goals simp only [List.cons_append, List.nil_append, List.mem_cons,
      List.not_mem_nil, List.mem_singleton, List.mem_append, or_false] at h
    all_goals repeat' (rcases h with h | h)
    all_goals first
      | (refine ⟨a, ?_, h1, ?_⟩
         · simp
         · simpa using h2)
  | succ r ih =>
    intro a t s h
    rw [complete_go] at h ⊢
    split_ifs at h ⊢ with h1 h2 h3
    all_goals simp only [List.cons_append, List.nil_append, List.mem_cons,
      List.not_mem_nil, List.mem_singleton, List.mem_append, or_false] at h
    all_goals repeat' (rcases h with h | h)
    all_goals first
      | (refine ⟨a, ?_, h1, ?_⟩
         · simp
         · simpa using h2)
      | (rcases ih (a + 1) (t * 2) s h with ⟨n, hn, hne, hns⟩
         exact ⟨n, List.mem_cons_of_mem _ (List.mem_append_right _ hn), hne, hns⟩)

theorem completed_outcome (env : CompleteEnv) (es : Nat) :
    ∀ r a t n, (complete_go env es a t r).1 = .completed n →
      env.completeOutcome n = .ok := by
  intro r
  induction r with
  | zero =>
    intro a t n h
    rw [complete_go] at h
    split_ifs at h <;> simp at h
    · obtain ⟨rfl⟩ := h; assumption
  | succ r ih =>
    intro a t n h
    rw [complete_go] at h
    split_ifs at h <;> simp at h
    · obtain ⟨rfl⟩ := h; assumption
    all_goals exact ih (a + 1) (t * 2) n h

theorem viaHead_head (env : CompleteEnv) (es : Nat) :
    ∀ r a t n, (complete_go env es a t r).1 = .succeededViaHead n →
      env.headResult n = some es ∧ env.completeOutcome n ≠ .ok := by
  intro r
  induction r with
  | zero =>
    intro a t n h
    rw [complete_go] at h
    split_ifs at h with h1 h2 h3 <;> simp at h
    all_goals obtain ⟨rfl⟩ := h
    all_goals first
      | exact ⟨h3, h1⟩
      | exact ⟨by assumption, h1⟩
  | succ r ih =>
    intro a t n h
    rw [complete_go] at h
    split_ifs at h with h1 h2 h3 <;> simp at h
    all_goals first
      | (obtain ⟨rfl⟩ := h
         exact ⟨by assumption, h1⟩)
      | exact ih (a + 1) (t * 2) n h

theorem head_match_immediate (env : CompleteEnv) (es a t r : Nat)
    (h1 : env.completeOutcome a ≠ .ok) (h2 : env.headResult a = some es) :
    (complete_go env es a t r).1 = .succeededViaHead a := by
  rw [complete_go, if_neg h1]
  split_ifs with hns <;> simp [h2]

theorem noSuch_no_sleep (env : CompleteEnv) (es : Nat) (r a t n t' : Nat)
    (ht : 0 < t)
    (hmem : CompleteEvent.attempt n t' ∈ (complete_go env es a t r).2)
    (hns : noSuch (env.completeOutcome n) = true) :
    CompleteEvent.sleep t' ∉ (complete_go env es a t r).2 := by
  intro hsleep
  rcases sleep_mem_origin env es r a t t' hsleep with ⟨m, hm, hmne, hmns⟩
  rcases attempt_mem_bounds env es r a t n t' hmem with ⟨han, -, htn⟩
  rcases attempt_mem_bounds env es r a t m t' hm with ⟨ham, -, htm⟩
  have hpow : 2 ^ (n - a) = 2 ^ (m - a) :=
    Nat.eq_of_mul_eq_mul_left ht (htn ▸ htm)
  have : n - a = m - a := Nat.pow_right_injective (le_refl 2) hpow
  have : n = m := by omega
  rw [← this] at hmns
  rw [hmns] at hns
  cases hns

theorem loop_507 (outcome : Nat → PartAttemptOutcome) (pn a r : Nat)
    (h : outcome a = .err507) :
    upload_part_loop outcome pn a r = (.insufficientStorage, a) := by
  cases r <;> (rw [upload_part_loop, h]; rfl)

-- attempts performed are at least the starting attempt
theorem loop_attempt_ge (outcome : Nat → PartAttemptOutcome) (pn : Nat) :
    ∀ r a, a ≤ (upload_part_loop outcome pn a r).2 := by
  intro r
  induction r with
  | zero =>
    intro a
    rw [upload_part_loop]
    split_ifs
    · exact Nat.le_refl _
    · exact Nat.le_refl _
    · exact Nat.le_refl _
  | succ r ih =>
    intro a
    rw [upload_part_loop]
    split_ifs
    · exact Nat.le_refl _
    · exact Nat.le_refl _
    · exact le_trans (by omega) (ih (a + 1))

theorem findSome?_append_none {α β : Type} (f : α → Option β) (l1 l2 : List α)
    (h : ∀ q ∈ l1, f q = none) : (l1 ++ l2).findSome? f = l2.findSome? f := by
  induction l1 with
  | nil => rfl
  | cons a t ih =>
    rw [List.cons_append, List.findSome?_cons, h a (by simp)]
    exact ih (fun q hq => h q (by simp [hq]))

theorem run_parts_ops (outcome : Nat → Nat → PartAttemptOutcome)
    (max_retries : Nat) (toUpload : List Nat) :
    (run_parts outcome max_retries toUpload).2 = toUpload.flatMap fun pn =>
      (List.range' 1 (partOutcome outcome max_retries pn).2).map
        fun a => EngineOp.attemptPart pn a := by
  rw [run_parts]
  split <;> rfl

theorem run_parts_no_abort (outcome : Nat → Nat → PartAttemptOutcome)
    (max_retries : Nat) (toUpload : List Nat) :
    EngineOp.abortMultipart ∉ (run_parts outcome max_retries toUpload).2 := by
  rw [run_parts_ops]
  simp [List.mem_flatMap]

theorem run_parts_all_attempted (outcome : Nat → Nat → PartAttemptOutcome)
    (max_retries : Nat) (toUpload : List Nat) (q : Nat) (hq : q ∈ toUpload) :
    EngineOp.attemptPart q 1 ∈ (run_parts outcome max_retries toUpload).2 := by
  rw [run_parts_ops]
  rw [List.mem_flatMap]
  refine ⟨q, hq, ?_⟩
  rw [List.mem_map]
  refine ⟨1, ?_, rfl⟩
  rw [List.mem_range'_1]
  have h1 : 1 ≤ (partOutcome outcome max_retries q).2 :=
    loop_attempt_ge (outcome q) q (max_retries - 1) 1
  exact ⟨le_refl _, by omega⟩

theorem run_parts_first_error (outcome : Nat → Nat → PartAttemptOutcome)
    (max_retries : Nat) (l1 l2 : List Nat) (pn : Nat)
    (hok : ∀ q ∈ l1, partError outcome max_retries q = none)
    (h507 : (partOutcome outcome max_retries pn).1 = .insufficientStorage) :
    (run_parts outcome max_retries (l1 ++ pn :: l2)).1 =
      .error (.insufficientStorage pn) := by
  rw [run_parts]
  rw [findSome?_append_none _ l1 _ hok, List.findSome?_cons]
  have : partError outcome max_retries pn = some (.insufficientStorage pn) := by
    rw [partError, h507]
  rw [this]


theorem append_eq_split {α : Type} {A B l1 l2 : List α} {x : α}
    (h : A ++ B = l1 ++ x :: l2) (hx : x ∉ A) : l2 <:+ B := by
  induction A generalizing l1 with
  | nil =>
    rw [List.nil_append] at h
    exact ⟨l1 ++ [x], by simp [h]⟩
  | cons a A ih =>
    cases l1 with
    | nil =>
      simp at h
      rcases h with ⟨rfl, -⟩
      exact absurd (List.mem_cons_self _ _) hx
    | cons b l1 =>
      rw [List.cons_append, List.cons_append] at h
      injection h with h1 h2
      exact ih h2 (fun hmem => hx (List.mem_cons_of_mem _ hmem))


/-! ## Claims C6–C10 -/

/-- C6: when `upload_file` is called without an explicit part size, the chunk
size chosen from the file size S is 10 MiB for S < 1 GiB, 50 MiB for
S < 10 GiB, 100 MiB for S < 50 GiB and 200 MiB otherwise. -/
theorem C6_auto_chunk_size (S : Nat) :
    (S < GiB → autoChunkSize S = 10 * MiB) ∧
    (GiB ≤ S → S < 10 * GiB → autoChunkSize S = 50 * MiB) ∧
    (10 * GiB ≤ S → S < 50 * GiB → autoChunkSize S = 100 * MiB) ∧
    (50 * GiB ≤ S → autoChunkSize S = 200 * MiB) := by
  unfold autoChunkSize GiB MiB
  norm_num
  refine ⟨fun h => ?_, fun h1 h2 => ?_, fun h1 h2 => ?_, fun h => ?_⟩ <;>
    split_ifs <;> omega

/-- Witness for C6 at a 2 GiB file. -/
theorem C6_witness : autoChunkSize (2 * GiB) = 50 * MiB :=
  (C6_auto_chunk_size (2 * GiB)).2.1 (by norm_num [GiB]) (by norm_num [GiB])

/-- C7 counterexample: the name `"bad name!"` violates the claimed
`[A-Za-z0-9_-]+` pattern, yet `create_network_volume` raises no validation
error for it — the HTTP request is issued, so the claimed client-side name
check does not exist. -/
theorem C7_counterexample :
    specValidName "bad name!" = false ∧
    create_network_volume "bad name!" 100 "EU-RO-1" =
      CreateResult.request "bad name!" 100 "EU-RO-1" := by decide

/-- C7 amended: before any network request, `create_network_volume` validates
only that the datacenter id is literally one of the registry keys (no
normalization is applied) and that 10 ≤ size ≤ 4000; the name is not
validated.  The request is issued exactly when both checks pass, and any
violation raises a `ValueError` without the HTTP call being made. -/
theorem C7_create_validation (name : String) (size : Int) (dc : String) :
    (create_network_volume name size dc = .request name size dc ↔
      dc ∈ datacenterIds ∧ 10 ≤ size ∧ size ≤ 4000) ∧
    ((dc ∉ datacenterIds ∨ ¬ (10 ≤ size ∧ size ≤ 4000)) →
      ∃ msg, create_network_volume name size dc = .validationError msg) := by
  by_cases hmem : dc ∈ datacenterIds
  · have hc : datacenterIds.contains dc = true := by simpa using hmem
    by_cases hsz : 10 ≤ size ∧ size ≤ 4000
    · refine ⟨by simp [create_network_volume, hc, hsz, hmem], fun h => ?_⟩
      rcases h with h | h
      · exact absurd hmem h
      · exact absurd hsz h
    · refine ⟨by simp [create_network_volume, hc, hsz, hmem], fun _ => ?_⟩
      exact ⟨"Size must be between 10 and 4000 GB",
        by simp [create_network_volume, hc, hsz, hmem]⟩
  · have hc : datacenterIds.contains dc = false := by simpa using hmem
    refine ⟨by simp [create_network_volume, hc, hmem], fun _ => ?_⟩
    exact ⟨"Invalid datacenter", by simp [create_network_volume, hc, hmem]⟩

/-- Witness for C7's amended theorem: a valid request and a rejected size. -/
theorem C7_witness :
    create_network_volume "vol" 100 "EU-RO-1" =
      CreateResult.request "vol" 100 "EU-RO-1" ∧
    ∃ msg, create_network_volume "vol" 5 "EU-RO-1" =
      CreateResult.validationError msg :=
  ⟨(C7_create_validation "vol" 100 "EU-RO-1").1.mpr
      ⟨by decide, by decide, by decide⟩,
   (C7_create_validation "vol" 5 "EU-RO-1").2 (Or.inr (by omega))⟩

/-- C8 counterexample: `normalize_region "nowhere"` yields the value
`"NOWHERE"` — a string not in the registry — rather than an
`UnknownDatacenter` error; the function is total and never errors. -/
theorem C8_counterexample :
    normalize_region "nowhere" = "NOWHERE" ∧
    datacenterIds.contains "NOWHERE" = false := by decide

/-- C8 amended: `normalize_region` uppercases, trims and applies the legacy
rewrite table (`eu-ro-1 ↦ EU-RO-1`, `US-KS-1 ↦ US-KS-2`) but performs no
registry membership check: an unknown identifier such as `nowhere` is
returned uppercased; the unknown-datacenter error is raised instead by the
endpoint lookup `get_s3_endpoint`. -/
theorem C8_normalize_behavior :
    normalize_region "eu-ro-1" = "EU-RO-1" ∧
    normalize_region "US-KS-1" = "US-KS-2" ∧
    normalize_region "nowhere" = "NOWHERE" ∧
    get_s3_endpoint "NOWHERE" =
      .error "No S3 endpoint for datacenter NOWHERE" ∧
    get_s3_endpoint "EU-RO-1" = .ok "https://s3api-eu-ro-1.runpod.io/" :=
  ⟨by decide, by decide, by decide, rfl, rfl⟩

/-- C9: `upload_file` on a non-existent local path raises `FileNotFoundError`,
and on a directory raises `ValueError`; both failures occur before the
simple/multipart dispatch, so no network request is made and no remote state
is touched. -/
theorem C9_upload_file_local_checks (fs : LocalFS)
    (p v r : String) (cs : Option Nat) :
    (fs.pathExists p = false →
      upload_file fs p v r cs = .fileNotFound ("Local file not found: " ++ p)) ∧
    (fs.pathExists p = true → fs.isDir p = true →
      upload_file fs p v r cs = .valueError
        ("Path is a directory. Use upload_directory() for directory uploads: "
          ++ p)) := by
  unfold upload_file
  constructor
  · intro h; simp [h]
  · intro h1 h2; simp [h1, h2]


/-- Witness for C9: both error paths at concrete inputs. -/
theorem C9_witness :
    upload_file fsEmpty "/tmp/x" "vol" "r" none =
      .fileNotFound ("Local file not found: " ++ "/tmp/x") ∧
    upload_file fsOneDir "/tmp/d" "vol" "r" none =
      .valueError
        ("Path is a directory. Use upload_directory() for directory uploads: "
          ++ "/tmp/d") :=
  ⟨(C9_upload_file_local_checks fsEmpty "/tmp/x" "vol" "r" none).1 rfl,
   (C9_upload_file_local_checks fsOneDir "/tmp/d" "vol" "r" none).2 rfl rfl⟩

/-- C10: `volume_exists` and `file_exists` are total Boolean functions of the
underlying call's outcome: every raised exception maps to `False`, success
maps to `True` (for `file_exists`, to whether some listed key equals the
probed path); no exception propagates. -/
theorem C10_exists_total (e : String) (u : Unit) (files : List FileInfo)
    (p : String) :
    volume_exists (.exn e) = false ∧
    volume_exists (.ok u) = true ∧
    file_exists (.exn e) p = false ∧
    (file_exists (.ok files) p = true ↔ ∃ f ∈ files, f.key = p) := by
  refine ⟨rfl, rfl, rfl, ?_⟩
  simp [file_exists, List.any_eq_true]

/-! ## Claims C1–C5 -/

/-- C1: under the engine's construction invariants (distinct part numbers, all
drawn from `1..N` with `N = ⌈S/P⌉`), the parts list handed to
`complete_multipart_upload` has exactly `N` entries with part numbers exactly
`1..N` in ascending order, and if any part number of `1..N` is missing the
upload raises `RuntimeError` before `complete_multipart` is called. -/
theorem C1_complete_sees_all_parts (S P : Nat) (all_parts : List PartETag)
    (hnd : (partNumbers all_parts).Nodup)
    (hbound : ∀ n ∈ partNumbers all_parts, 1 ≤ n ∧ n ≤ totalParts S P) :
    (∀ sorted, assemble_parts all_parts (totalParts S P) = some sorted →
      sorted.length = totalParts S P ∧
      partNumbers sorted = List.range' 1 (totalParts S P)) ∧
    ((∃ q, 1 ≤ q ∧ q ≤ totalParts S P ∧ q ∉ partNumbers all_parts) →
      assemble_parts all_parts (totalParts S P) = none) :=
  assemble_parts_spec (totalParts S P) all_parts hnd hbound

/-- Witness for C1: a 25-byte file with 10-byte parts (N = 3), parts arriving
out of order, yields the sorted part numbers `[1, 2, 3]`; dropping part 2
makes the engine fail before completion. -/
theorem C1_witness :
    partNumbers (([⟨2, "b"⟩, ⟨1, "a"⟩, ⟨3, "c"⟩] : List PartETag).insertionSort
        byNumber) = List.range' 1 (totalParts 25 10) ∧
    assemble_parts [⟨1, "a"⟩, ⟨3, "c"⟩] (totalParts 25 10) = none :=
  ⟨((C1_complete_sees_all_parts 25 10 [⟨2, "b"⟩, ⟨1, "a"⟩, ⟨3, "c"⟩]
      (by decide) (by decide)).1 _ rfl).2,
   (C1_complete_sees_all_parts 25 10 [⟨1, "a"⟩, ⟨3, "c"⟩]
      (by decide) (by decide)).2 ⟨2, by decide, by decide, by decide⟩⟩

/-- C2 counterexample: a discovered session for the same key with **no**
uploaded parts satisfies every compatibility condition of the claim
vacuously (part numbers a subset of 1..N, every uploaded part correctly
sized), yet `verify_upload_compatibility` rejects it, no session is adopted
and a new session is created — the claimed "if and only if" fails. -/
theorem C2_counterexample :
    specCompatible [] 100 10 ∧
    verify_upload_compatibility [] 100 10 = false ∧
    chooseSession true [⟨"k", "uid1", []⟩] "k" 100 10 = .created :=
  ⟨⟨by simp, by simp, by simp⟩, rfl, rfl⟩

/-- C2 amended: with resume enabled, a discovered session is adopted iff its
key matches under plain / leading-slash comparison and it is compatible with
the current file **and contains at least one uploaded part**: every uploaded
part below N sized exactly P, part N sized S−(N−1)·P, no part number above N.
The first such session (in listing order) is adopted; its part numbers are
excluded from the scheduled uploads; when none qualifies a new session is
created. -/
theorem C2_resume_behavior (S P : Nat) :
    (∀ parts, (∀ p ∈ parts, 1 ≤ p.partNumber) →
      (verify_upload_compatibility parts S P = true ↔
        parts ≠ [] ∧ specCompatible parts S P)) ∧
    (∀ uploads key, find_existing_upload uploads key S P =
      (uploads.find? (fun u => keyMatches u.key key &&
        verify_upload_compatibility u.parts S P)).map (fun u => u.uploadId)) ∧
    (∀ uploads key uid, chooseSession true uploads key S P = .resumed uid ↔
      find_existing_upload uploads key S P = some uid) ∧
    (∀ uploads key, chooseSession true uploads key S P = .created ↔
      find_existing_upload uploads key S P = none) ∧
    (∀ existingNums N p, p ∈ partsToUpload existingNums N ↔
      1 ≤ p ∧ p ≤ N ∧ p ∉ existingNums) :=
  ⟨fun parts h => verify_compat_iff parts S P h,
   fun uploads key => find_existing_eq_find? uploads key S P,
   fun uploads key uid => chooseSession_resumed uploads key S P uid,
   fun uploads key => chooseSession_created uploads key S P,
   fun existingNums N p => partsToUpload_mem existingNums N p⟩

/-- Witness for C2: a one-part 10-byte-part session against a 100-byte file
(N = 10) is accepted by the code and meets the amended conditions. -/
theorem C2_witness :
    ([(⟨1, 10⟩ : PartInfo)] ≠ [] ∧ specCompatible [⟨1, 10⟩] 100 10) ∧
    (3 ∈ partsToUpload [1, 2] 10 ∧ 1 ∉ partsToUpload [1, 2] 10) :=
  ⟨((C2_resume_behavior 100 10).1 [⟨1, 10⟩] (by decide)).mp (by decide),
   ((C2_resume_behavior 100 10).2.2.2.2 [1, 2] 10 3).mpr
      ⟨by decide, by decide, by decide⟩,
   fun h => by
     have := ((C2_resume_behavior 100 10).2.2.2.2 [1, 2] 10 1).mp h
     exact absurd (by decide : (1 : Nat) ∈ [1, 2]) this.2.2⟩

/-- C3: `complete_multipart` is first attempted with a timeout of
`max(60, ⌈file-GiB⌉·5)` seconds; attempt `n` uses that timeout doubled
`n-1` times and there are at most `max_retries` attempts; each failed
attempt is followed by a `head_object` probe, preceded by a sleep of the
current timeout exactly when the error is not "no such upload"; a probe
reporting the expected size ends the loop successfully, and a normal
completion happens only on an `ok` outcome. -/
theorem C3_completion_retry (env : CompleteEnv) (max_retries fs es : Nat)
    (hmr : 1 ≤ max_retries) :
    completion_timeout fs = max 60 (ceilGiB fs * 5) ∧
    CompleteEvent.attempt 1 (completion_timeout fs) ∈
      (complete_with_timeout_retry env max_retries es (completion_timeout fs)).2 ∧
    (∀ n t, CompleteEvent.attempt n t ∈
        (complete_with_timeout_retry env max_retries es (completion_timeout fs)).2 →
      1 ≤ n ∧ n ≤ max_retries ∧ t = completion_timeout fs * 2 ^ (n - 1)) ∧
    (∀ n t, CompleteEvent.attempt n t ∈
        (complete_with_timeout_retry env max_retries es (completion_timeout fs)).2 →
      env.completeOutcome n ≠ .ok →
      CompleteEvent.headProbe n ∈
        (complete_with_timeout_retry env max_retries es (completion_timeout fs)).2 ∧
      (noSuch (env.completeOutcome n) = false →
        CompleteEvent.sleep t ∈
          (complete_with_timeout_retry env max_retries es (completion_timeout fs)).2) ∧
      (noSuch (env.completeOutcome n) = true →
        CompleteEvent.sleep t ∉
          (complete_with_timeout_retry env max_retries es (completion_timeout fs)).2)) ∧
    (∀ n, (complete_with_timeout_retry env max_retries es (completion_timeout fs)).1 =
        .completed n → env.completeOutcome n = .ok) ∧
    (∀ n, (complete_with_timeout_retry env max_retries es (completion_timeout fs)).1 =
        .succeededViaHead n →
      env.headResult n = some es ∧ env.completeOutcome n ≠ .ok) ∧
    (env.completeOutcome 1 ≠ .ok → env.headResult 1 = some es →
      (complete_with_timeout_retry env max_retries es (completion_timeout fs)).1 =
        .succeededViaHead 1) := by
  have hT : 0 < completion_timeout fs := by
    have : (60 : Nat) ≤ completion_timeout fs := le_max_left _ _
    omega
  refine ⟨rfl, attempt_self_mem env es 1 _ _, ?_, ?_, ?_, ?_, ?_⟩
  · intro n t h
    rcases attempt_mem_bounds env es _ 1 _ n t h with ⟨h1, h2, h3⟩
    exact ⟨h1, by omega, h3⟩
  · intro n t h hne
    rcases failure_probe_sleep env es _ 1 _ n t h hne with ⟨hp, hs⟩
    exact ⟨hp, hs, fun hns => noSuch_no_sleep env es _ 1 _ n t hT h hns⟩
  · exact fun n h => completed_outcome env es _ 1 _ n h
  · exact fun n h => viaHead_head env es _ 1 _ n h
  · exact fun h1 h2 => head_match_immediate env es 1 _ _ h1 h2


/-- Witness for C3: a 3 GiB file gives a 60 s first deadline (max 60 15);
after the first timeout the loop sleeps 60 s, probes, doubles to 120 s and
completes on attempt 2. -/
theorem C3_witness :
    CompleteEvent.attempt 1 (completion_timeout (3 * GiB)) ∈
      (complete_with_timeout_retry envRetryOnce 5 100 (completion_timeout (3 * GiB))).2 ∧
    envRetryOnce.completeOutcome 2 = .ok ∧
    completion_timeout (3 * GiB) = 60 :=
  ⟨(C3_completion_retry envRetryOnce 5 (3 * GiB) 100 (by decide)).2.1,
   (C3_completion_retry envRetryOnce 5 (3 * GiB) 100 (by decide)).2.2.2.2.1 2
     (by decide),
   by decide⟩


/-- C4 counterexample: with missing parts `[1, 2]` and a 507 on part 1, the
run fails with `InsufficientStorage` and the session is left open, but part 2
**is** attempted: `upload` submits every missing part to the pool before
collecting any result and submitted futures are never cancelled, so the
claim's "no further parts are attempted" is false. -/
theorem C4_counterexample :
    (run_parts outcome507 5 [1, 2]).1 =
      .error (.insufficientStorage 1) ∧
    EngineOp.attemptPart 2 1 ∈ (run_parts outcome507 5 [1, 2]).2 :=
  ⟨rfl, by decide⟩

/-- C4 amended: a 507 on any attempt of a part stops that part's retry loop
immediately at that attempt (the part is not retried); the run's result is
`InsufficientStorage` for the (first) failing part, `abort_multipart` is
never issued (the upload-id stays open), but parts already submitted to the
worker pool still run, so every missing part is attempted at least once. -/
theorem C4_insufficient_storage (outcome : Nat → Nat → PartAttemptOutcome)
    (max_retries : Nat) (l1 l2 : List Nat) (pn : Nat)
    (hok : ∀ q ∈ l1, partError outcome max_retries q = none)
    (h507 : (partOutcome outcome max_retries pn).1 = .insufficientStorage) :
    (∀ f p a r, f a = .err507 →
      upload_part_loop f p a r = (.insufficientStorage, a)) ∧
    (run_parts outcome max_retries (l1 ++ pn :: l2)).1 =
      .error (.insufficientStorage pn) ∧
    EngineOp.abortMultipart ∉
      (run_parts outcome max_retries (l1 ++ pn :: l2)).2 ∧
    (∀ q ∈ l1 ++ pn :: l2, EngineOp.attemptPart q 1 ∈
      (run_parts outcome max_retries (l1 ++ pn :: l2)).2) :=
  ⟨fun f p a r h => loop_507 f p a r h,
   run_parts_first_error outcome max_retries l1 l2 pn hok h507,
   run_parts_no_abort _ _ _,
   fun q hq => run_parts_all_attempted _ _ _ q hq⟩

/-- Witness for C4's amended theorem at the concrete 507 scenario. -/
theorem C4_witness :
    (run_parts outcome507 5 ([] ++ 1 :: [2])).1 =
      .error (.insufficientStorage 1) ∧
    EngineOp.abortMultipart ∉ (run_parts outcome507 5 ([] ++ 1 :: [2])).2 :=
  ⟨(C4_insufficient_storage outcome507 5 [] [2] 1 (by simp) (by decide)).2.1,
   (C4_insufficient_storage outcome507 5 [] [2] 1 (by simp) (by decide)).2.2.1⟩

/-- C5: after a fully successful `upload_directory` run with `delete=true`
(and deletions succeeding — individual delete failures are only logged), the
remote keys under the prefix are exactly the keys derived from the
non-excluded local files; every such file is uploaded; a key of the initial
listing is deleted iff it was not uploaded in this pass; and no upload event
follows any delete event. -/
theorem C5_directory_sync_delete (localFiles : List String)
    (excludeMatch : String → Bool) (remote_dir : String)
    (initialRemote : List String) (uploadOK : String → Bool)
    (hsucc : (upload_directory localFiles excludeMatch remote_dir initialRemote
      uploadOK true).success = true) :
    (∀ k, k ∈ finalRemote initialRemote
        (upload_directory localFiles excludeMatch remote_dir initialRemote
          uploadOK true).uploaded
        (upload_directory localFiles excludeMatch remote_dir initialRemote
          uploadOK true).deleted ↔
      k ∈ localPlan localFiles excludeMatch remote_dir) ∧
    (∀ k ∈ localPlan localFiles excludeMatch remote_dir,
      SyncEvent.uploadFile k ∈ (upload_directory localFiles excludeMatch
        remote_dir initialRemote uploadOK true).events) ∧
    (∀ k, k ∈ (upload_directory localFiles excludeMatch remote_dir
        initialRemote uploadOK true).deleted ↔
      k ∈ initialRemote ∧ k ∉ (upload_directory localFiles excludeMatch
        remote_dir initialRemote uploadOK true).uploaded) ∧
    (∀ l1 l2 k k', (upload_directory localFiles excludeMatch remote_dir
        initialRemote uploadOK true).events = l1 ++ .deleteFile k :: l2 →
      SyncEvent.uploadFile k' ∉ l2) := by
  have hall : ∀ k ∈ localPlan localFiles excludeMatch remote_dir,
      uploadOK k = true := by
    intro k hk
    by_contra hno
    have hmem : k ∈ (localPlan localFiles excludeMatch remote_dir).filter
        (fun k => !uploadOK k) :=
      List.mem_filter.mpr ⟨hk, by simp [by simpa using hno]⟩
    have hemp : ((localPlan localFiles excludeMatch remote_dir).filter
        (fun k => !uploadOK k)) = [] := List.isEmpty_iff.mp hsucc
    rw [hemp] at hmem
    cases hmem
  have hupl : (upload_directory localFiles excludeMatch remote_dir
      initialRemote uploadOK true).uploaded =
      localPlan localFiles excludeMatch remote_dir :=
    List.filter_eq_self.mpr (fun k hk => hall k hk)
  have hs : (localPlan localFiles excludeMatch remote_dir).filter uploadOK =
      localPlan localFiles excludeMatch remote_dir :=
    List.filter_eq_self.mpr (fun k hk => hall k hk)
  have hdel : (upload_directory localFiles excludeMatch remote_dir
      initialRemote uploadOK true).deleted =
      initialRemote.filter
        (fun k => !(localPlan localFiles excludeMatch remote_dir).contains k) := by
    show initialRemote.filter
        (fun k => !((localPlan localFiles excludeMatch remote_dir).filter
          uploadOK).contains k) =
      initialRemote.filter
        (fun k => !(localPlan localFiles excludeMatch remote_dir).contains k)
    rw [hs]
  refine ⟨?_, ?_, ?_, ?_⟩
  · intro k
    rw [hupl, hdel]
    simp only [finalRemote, List.mem_filter, List.mem_append]
    simp
    tauto
  · intro k hk
    exact List.mem_append_left _ (List.mem_map_of_mem _ hk)
  · intro k
    rw [hupl, hdel, List.mem_filter]
    simp
  · intro l1 l2 k k' hev hk'
    have hnd : SyncEvent.deleteFile k ∉
        (localPlan localFiles excludeMatch remote_dir).map SyncEvent.uploadFile := by
      intro hmem
      rcases List.mem_map.mp hmem with ⟨q, -, hq⟩
      cases hq
    have hsuf := append_eq_split hev hnd
    rcases hsuf with ⟨pre, hpre⟩
    have hmem2 : SyncEvent.uploadFile k' ∈ pre ++ l2 :=
      List.mem_append_right pre hk'
    rw [hpre] at hmem2
    rcases List.mem_map.mp hmem2 with ⟨q, -, hq⟩
    cases hq

/-- Witness for C5: after the run the remote holds `pre/a.txt` (uploaded) but
no longer `pre/old.txt` (deleted as an orphan). -/
theorem C5_witness :
    "pre/a.txt" ∈ finalRemote ["pre/old.txt"] syncRun.uploaded syncRun.deleted ∧
    "pre/old.txt" ∉ finalRemote ["pre/old.txt"] syncRun.uploaded syncRun.deleted ∧
    "pre/old.txt" ∈ syncRun.deleted :=
  ⟨((C5_directory_sync_delete ["a.txt", "sub/b.txt", ".DS_Store"]
      (fun s => s == ".DS_Store") "pre" ["pre/old.txt"] (fun _ => true)
      (by decide)).1 "pre/a.txt").mpr (by decide),
   fun h => absurd (((C5_directory_sync_delete ["a.txt", "sub/b.txt", ".DS_Store"]
      (fun s => s == ".DS_Store") "pre" ["pre/old.txt"] (fun _ => true)
      (by decide)).1 "pre/old.txt").mp h) (by decide),
   ((C5_directory_sync_delete ["a.txt", "sub/b.txt", ".DS_Store"]
      (fun s => s == ".DS_Store") "pre" ["pre/old.txt"] (fun _ => true)
      (by decide)).2.2.1 "pre/old.txt").mpr ⟨by decide, by decide⟩⟩

end RunpodStorage
